import Mathlib

/-!
Shallow embedding of the real-time layer of the Nodejs work-management
backend: the online-user registry, room membership and broadcast model of
`src/config/socket.js`, and the mutation services that fan domain events
out to rooms (`src/modules/comments/comments.service.js` and
`src/modules/tasks/tasks.service.js`).
-/

namespace NodeRT

/-- The authenticated identity attached to a socket: `socket.user` carries
`\x7b id, name, role, ... \x7d`; the registry stores `\x7b userId, name \x7d`. -/
structure Identity where
  userId : String
  name   : String
deriving DecidableEq, Repr

/-- A persisted Notification record (src/models/Notification.js): message,
type, recipient, optional related task and project, read flag (`isRead`
defaults to `false` on creation). -/
structure Notification where
  message        : String
  type           : String
  recipient      : String
  relatedTask    : Option String
  relatedProject : Option String
  isRead         : Bool
deriving DecidableEq, Repr

/-- The slice of a persisted Task record the real-time layer reads
(src/models/Task.js): its id, title, owning project id, status, assignee. -/
structure TaskRec where
  taskId     : String
  title      : String
  project    : String
  status     : String
  assignedTo : Option String
deriving DecidableEq, Repr

/-- A persisted Comment record (src/models/Comment.js): content, task,
author. -/
structure CommentRec where
  content : String
  task    : String
  author  : String
deriving DecidableEq, Repr

/-- JS `Map.prototype.set` on an association list keyed by socket id
(`onlineUsers.set(socket.id, ...)`, socket.js line 102): when the key is
already present its entry is overwritten in place, keeping insertion
order; otherwise the new entry is appended at the end. -/
def mapSet : List (String × Identity) → String → Identity → List (String × Identity)
  | [], k, v => [(k, v)]
  | p :: rest, k, v => if p.1 = k then (k, v) :: rest else p :: mapSet rest k v

/-- JS `Map.prototype.delete` (`onlineUsers.delete(socket.id)`, socket.js
line 206): removes the entry when present, no-op otherwise. -/
def mapDelete (m : List (String × Identity)) (k : String) :
    List (String × Identity) :=
  m.filter (fun p => p.1 ≠ k)

/-- JS `Map.prototype.get`. -/
def mapGet (m : List (String × Identity)) (k : String) : Option Identity :=
  (m.find? (fun p => p.1 = k)).map Prod.snd

/-- JS `Map.prototype.has`: whether the key maps to an entry. -/
def mapHas (m : List (String × Identity)) (k : String) : Bool :=
  (mapGet m k).isSome

/-- Model of `Array.from(onlineUsers.values())` (socket.js line 34): the snapshot of
online identities broadcast to every client. -/
def listOnline (m : List (String × Identity)) : List Identity :=
  m.map Prod.snd

/-- Event payloads appearing on the wire, one constructor per outbound
payload shape of socket.js and the services. -/
inductive Payload where
  /-- Payload of `onlineUsers`: the array of `\x7b userId, name \x7d` values. -/
  | onlineList (users : List Identity)
  /-- Payload of `userTyping`: `\x7b userId, name, roomId \x7d` (socket.js lines 171-175). -/
  | typing (userId userName : String) (roomId : Option String)
  /-- Payload of `userStoppedTyping`: `\x7b userId, roomId \x7d` (socket.js lines 183-186):
  no display-name field. -/
  | stopped (userId : String) (roomId : Option String)
  /-- Payload of `notification:new`: the persisted notification record
  itself (tasks.service.js emits `notification`). -/
  | notifNew (n : Notification)
  /-- Payload of `task:updated` (tasks.service.js lines 174-179):
  `\x7b taskId, status, updatedBy: updatedBy.name, task \x7d`. -/
  | taskUpdated (taskId status updatedByName : String) (task : TaskRec)
  /-- Payload of `comment:new` (comments.service.js lines 22-25):
  `\x7b taskId, comment \x7d`. -/
  | commentNew (taskId : String) (comment : CommentRec)
deriving DecidableEq, Repr

/-- Where an emit is addressed: `io.emit` reaches every connected socket;
`io.to(room).emit` / `socket.to(room).emit` reach the members of a room,
the latter excluding the sender.  A `none` room is `socket.to(undefined)`:
a room value no socket can ever be a member of. -/
inductive Target where
  | all
  | room (r : Option String) (exclude : Option String)
deriving DecidableEq, Repr

/-- One outbound emit: target, event name, payload. -/
structure Emit where
  target  : Target
  event   : String
  payload : Payload
deriving DecidableEq, Repr

/-- Server-side mutable state of socket.js: the `onlineUsers` map and the
room membership relation maintained by the socket library
(socket id × room name, a set: `socket.join` is idempotent). -/
structure ServerState where
  onlineUsers : List (String × Identity)
  rooms       : List (String × String)
deriving DecidableEq, Repr

/-- Delivery semantics of the socket library: whether socket `c` receives
emit `e` given server state `s`.  `io.emit` reaches every connected
socket; a room emit reaches the sockets subscribed to that room, minus
the excluded sender; an emit to the `undefined` room reaches nobody. -/
def delivers (s : ServerState) (e : Emit) (c : String) : Bool :=
  match e.target with
  | .all => mapHas s.onlineUsers c
  | .room r ex =>
    match r with
    | none => false
    | some room => s.rooms.contains (c, room) && !(ex == some c)

/-- Model of `socket.join(room)`: room membership is a set, so joining an already
joined room changes nothing. -/
def joinRoom (s : ServerState) (c room : String) : ServerState :=
  if s.rooms.contains (c, room) then s
  else { s with rooms := (c, room) :: s.rooms }

/-- Model of `socket.leave(room)`: removes the membership pair; no-op when the
socket never joined the room. -/
def leaveRoom (s : ServerState) (c room : String) : ServerState :=
  { s with rooms := s.rooms.filter (fun p => p ≠ (c, room)) }

/-- Helper `broadcastOnlineUsers` (socket.js lines 32-37): `io.emit("onlineUsers",
Array.from(onlineUsers.values()))`. -/
def broadcastOnlineUsers (s : ServerState) : Emit :=
  { target := .all, event := "onlineUsers", payload := .onlineList (listOnline s.onlineUsers) }

/-- Body of `io.on("connection")` before the per-socket handlers are
installed (socket.js lines 94-103): register the socket in `onlineUsers`
and broadcast the fresh snapshot. -/
def onConnection (s : ServerState) (socketId : String) (ident : Identity) :
    ServerState × List Emit :=
  let s1 : ServerState := { s with onlineUsers := mapSet s.onlineUsers socketId ident }
  (s1, [broadcastOnlineUsers s1])

/-- Handler `socket.on("disconnect")` (socket.js lines 201-214): delete the map
entry, let the library drop the socket from all of its rooms, and
broadcast the fresh snapshot. -/
def onDisconnect (s : ServerState) (socketId : String) :
    ServerState × List Emit :=
  let s1 : ServerState :=
    { onlineUsers := mapDelete s.onlineUsers socketId,
      rooms := s.rooms.filter (fun p => p.1 ≠ socketId) }
  (s1, [broadcastOnlineUsers s1])

/-- Handler `socket.on("joinProject")` (socket.js lines 131-135). -/
def onJoinProject (s : ServerState) (c projectId : String) : ServerState :=
  joinRoom s c ("project:" ++ projectId)

/-- Handler `socket.on("leaveProject")` (socket.js lines 138-142). -/
def onLeaveProject (s : ServerState) (c projectId : String) : ServerState :=
  leaveRoom s c ("project:" ++ projectId)

/-- Handler `socket.on("joinUser")` (socket.js lines 147-151): joins
`user:<targetUserId>` for whatever target the client names, with no check
against the socket's own authenticated user id. -/
def onJoinUser (s : ServerState) (c targetUserId : String) : ServerState :=
  joinRoom s c ("user:" ++ targetUserId)

/-- Handler `socket.on("leaveUser")` (socket.js lines 154-158). -/
def onLeaveUser (s : ServerState) (c targetUserId : String) : ServerState :=
  leaveRoom s c ("user:" ++ targetUserId)

/-- Handler `socket.on("startTyping")` (socket.js lines 167-176):
`socket.to(roomId).emit("userTyping", \x7b userId, name, roomId \x7d)`.  A
payload missing `roomId` destructures to `undefined`, modelled as `none`. -/
def onStartTyping (c : String) (ident : Identity) (roomId : Option String) :
    List Emit :=
  [ { target := .room roomId (some c), event := "userTyping",
      payload := .typing ident.userId ident.name roomId } ]

/-- Handler `socket.on("stopTyping")` (socket.js lines 179-187):
`socket.to(roomId).emit("userStoppedTyping", \x7b userId, roomId \x7d)`. -/
def onStopTyping (c : String) (ident : Identity) (roomId : Option String) :
    List Emit :=
  [ { target := .room roomId (some c), event := "userStoppedTyping",
      payload := .stopped ident.userId roomId } ]

/-- JS token extraction (socket.js lines 69-71): accept
`Bearer <token>` or a raw token. -/
def extractToken (authHeader : String) : String :=
  if authHeader.startsWith "Bearer " then
    ((authHeader.splitOn " ").getD 1 "")
  else
    authHeader

/-- Socket credential middleware `io.use` (socket.js lines 54-89),
parameterised by the external `jwt.verify` collaborator: a missing or
falsy (empty) token is rejected, otherwise the extracted token is
verified; on failure the connection is rejected with a reason. -/
def authMiddleware (verify : String → Option Identity) (token : Option String) :
    Except String Identity :=
  match token with
  | none => .error "Authentication token required. Please login first."
  | some authHeader =>
    if authHeader = "" then
      .error "Authentication token required. Please login first."
    else
      match verify (extractToken authHeader) with
      | some ident => .ok ident
      | none => .error "Invalid or expired token. Please login again."

/-- Inbound client events, driving the per-connection dispatch of socket.js. -/
inductive ClientEv where
  | connect (socketId : String) (token : Option String)
  | disconnect (socketId : String)
  | joinProject (socketId projectId : String)
  | leaveProject (socketId projectId : String)
  | joinUser (socketId targetUserId : String)
  | leaveUser (socketId targetUserId : String)
  | startTyping (socketId : String) (roomId : Option String)
  | stopTyping (socketId : String) (roomId : Option String)
deriving DecidableEq, Repr

/-- One step of the server: a handshake attempt runs the auth middleware
and, on success, the connection handler; a rejected handshake leaves the
state untouched and emits nothing.  The per-socket handlers only exist
for sockets that completed the handshake, so events from unknown socket
ids are ignored. -/
def step (verify : String → Option Identity) (s : ServerState) :
    ClientEv → ServerState × List Emit
  | .connect c tok =>
    match authMiddleware verify tok with
    | .error _ => (s, [])
    | .ok ident => onConnection s c ident
  | .disconnect c =>
    if mapHas s.onlineUsers c then onDisconnect s c else (s, [])
  | .joinProject c pid =>
    if mapHas s.onlineUsers c then (onJoinProject s c pid, []) else (s, [])
  | .leaveProject c pid =>
    if mapHas s.onlineUsers c then (onLeaveProject s c pid, []) else (s, [])
  | .joinUser c uid =>
    if mapHas s.onlineUsers c then (onJoinUser s c uid, []) else (s, [])
  | .leaveUser c uid =>
    if mapHas s.onlineUsers c then (onLeaveUser s c uid, []) else (s, [])
  | .startTyping c rid =>
    match mapGet s.onlineUsers c with
    | some ident => (s, onStartTyping c ident rid)
    | none => (s, [])
  | .stopTyping c rid =>
    match mapGet s.onlineUsers c with
    | some ident => (s, onStopTyping c ident rid)
    | none => (s, [])

/-- Run a sequence of inbound events, keeping only the state. -/
def runEvents (verify : String → Option Identity) (s : ServerState)
    (evs : List ClientEv) : ServerState :=
  evs.foldl (fun st ev => (step verify st ev).1) s

/-! ### Document store records and mutation services -/

/-- The document store state the three mutation services touch. -/
structure Store where
  tasks         : List TaskRec
  comments      : List CommentRec
  notifications : List Notification
deriving DecidableEq, Repr

/-- Model of `Task.findById` on the embedded store. -/
def findTask (st : Store) (taskId : String) : Option TaskRec :=
  st.tasks.find? (fun t => t.taskId = taskId)

/-- Outcome of one service call: the store after it, the emits that
reached the socket layer, and the value returned to the HTTP caller. -/
structure SvcResult (α : Type) where
  store  : Store
  emits  : List Emit
  result : Except String α
deriving Repr

/-- Service `addComment` (src/modules/comments/comments.service.js lines 7-32):
persist the comment, then inside a try/catch look up the task and emit
`comment:new` to `project:<task.project>`; a throwing emit step
(`emitOk = false`, e.g. `getIO()` throwing) is caught and logged, and the
comment is returned regardless. -/
def addComment (emitOk : Bool) (st : Store) (taskId content authorId : String) :
    SvcResult CommentRec :=
  let comment : CommentRec := { content := content, task := taskId, author := authorId }
  let st1 : Store := { st with comments := st.comments ++ [comment] }
  let emits :=
    if emitOk then
      match findTask st1 taskId with
      | some t =>
        [ { target := .room (some ("project:" ++ t.project)) none,
            event := "comment:new",
            payload := .commentNew taskId comment } ]
      | none => []
    else []
  { store := st1, emits := emits, result := .ok comment }

/-- The Notification record created by `assignTask`
(src/modules/tasks/tasks.service.js, src/unnamed/part_006 lines 205-211):
message interpolates the task title, type `task_assigned`, recipient the
assignee, related task and project, `isRead` defaulting to false. -/
def assignNotif (taskId assigneeId : String) (task : TaskRec) : Notification :=
  { message := "You have been assigned to task: \"" ++ task.title ++ "\"",
    type := "task_assigned", recipient := assigneeId,
    relatedTask := some taskId, relatedProject := some task.project,
    isRead := false }

/-- Service `assignTask` (src/modules/tasks/tasks.service.js,
src/unnamed/part_006 lines 189-223): `findByIdAndUpdate` sets the
assignee (404 error when the task is absent), a Notification for the
assignee is persisted, and inside a try/catch `notification:new` carrying
that record is emitted to `user:<assigneeId>`; a throwing emit step
(`emitOk = false`) is caught and logged.  The `assignedBy` caller
identity is accepted but unused by the fan-out, as in the code. -/
def assignTask (emitOk : Bool) (st : Store) (taskId assigneeId : String)
    (assignedBy : Identity) : SvcResult TaskRec :=
  match findTask st taskId with
  | none => { store := st, emits := [], result := .error "Task not found" }
  | some t =>
    let t1 : TaskRec := { t with assignedTo := some assigneeId }
    let st1 : Store :=
      { st with tasks := st.tasks.map (fun u => if u.taskId = taskId then t1 else u) }
    let notif := assignNotif taskId assigneeId t1
    let st2 : Store := { st1 with notifications := st1.notifications ++ [notif] }
    let emits :=
      if emitOk then
        [ { target := .room (some ("user:" ++ assigneeId)) none,
            event := "notification:new",
            payload := .notifNew notif } ]
      else []
    { store := st2, emits := emits, result := .ok t1 }

/-- Service `updateTaskStatus` (src/modules/tasks/tasks.service.js,
src/unnamed/part_006 lines 152-186): `findByIdAndUpdate` sets the new
status (404 error when the task is absent), no Notification is
persisted, and inside a try/catch `task:updated` is emitted to
`project:<projectId>` with payload `\x7b taskId, status, updatedBy:
updatedBy.name, task \x7d`; a throwing emit step (`emitOk = false`) is
caught and logged. -/
def updateTaskStatus (emitOk : Bool) (st : Store) (taskId newStatus : String)
    (updatedBy : Identity) : SvcResult TaskRec :=
  match findTask st taskId with
  | none => { store := st, emits := [], result := .error "Task not found" }
  | some t =>
    let t1 : TaskRec := { t with status := newStatus }
    let st1 : Store :=
      { st with tasks := st.tasks.map (fun u => if u.taskId = taskId then t1 else u) }
    let emits :=
      if emitOk then
        [ { target := .room (some ("project:" ++ t1.project)) none,
            event := "task:updated",
            payload := .taskUpdated t1.taskId t1.status updatedBy.name t1 } ]
      else []
    { store := st1, emits := emits, result := .ok t1 }

/-! ### Register/deregister call sequences (spec section 4.1) -/

/-- A call against the Session Registry: `register` is the
`onlineUsers.set` performed on connection, `deregister` the
`onlineUsers.delete` performed on disconnect. -/
inductive RegOp where
  | reg (connId : String) (ident : Identity)
  | dereg (connId : String)
deriving DecidableEq, Repr

/-- Apply one registry call to the `onlineUsers` map. -/
def applyOp (m : List (String × Identity)) : RegOp → List (String × Identity)
  | .reg c i => mapSet m c i
  | .dereg c => mapDelete m c

/-- Apply a sequence of registry calls, first call first. -/
def applyOps (m : List (String × Identity)) (ops : List RegOp) :
    List (String × Identity) :=
  ops.foldl applyOp m

/-- Well-formed call sequences: each `register` uses a connection id no
earlier call (register or deregister) mentioned.  This is exactly
"transport-assigned identifiers are unique, and a connection can only be
deregistered after it was registered". -/
def wfOps (seen : List String) : List RegOp → Bool
  | [] => true
  | .reg c _ :: rest => !seen.contains c && wfOps (c :: seen) rest
  | .dereg c :: rest => wfOps (c :: seen) rest

/-- The identities carried by the register calls of a sequence. -/
def regIdents (ops : List RegOp) : List Identity :=
  ops.filterMap (fun o => match o with | .reg _ i => some i | .dereg _ => none)

/-- The identities of the connections a sequence deregisters. -/
def deregIdents (ops : List RegOp) : List Identity :=
  ops.filterMap (fun o => match o with
    | .reg c i => if ops.contains (.dereg c) then some i else none
    | .dereg _ => none)

/-- First identity a sequence registers under a given connection id. -/
def regLookup (ops : List RegOp) (c : String) : Option Identity :=
  ops.findSome? (fun o => match o with
    | .reg c1 i => if c1 = c then some i else none
    | .dereg _ => none)

/-- The keys of the map have no duplicates — the invariant every JS Map
satisfies. -/
def nodupKeys (m : List (String × Identity)) : Prop :=
  (m.map Prod.fst).Nodup

/-- Join the same room a number of times in a row. -/
def joinTimes (s : ServerState) (c r : String) : Nat → ServerState
  | 0 => s
  | n + 1 => joinRoom (joinTimes s c r n) c r

/-- The connection ids used by the register calls of a sequence. -/
def regConnIds (ops : List RegOp) : List String :=
  ops.filterMap (fun o => match o with | .reg c _ => some c | .dereg _ => none)

/-- The registry claim exactly as the spec states it: for sequences whose
register calls use unique connection ids, the online identities after the
sequence are the identities registered minus the identities of the
deregistered connections. -/
def registryClaim (ops : List RegOp) : Prop :=
  (regConnIds ops).Nodup →
    ∀ i, i ∈ listOnline (applyOps [] ops) ↔ (i ∈ regIdents ops ∧ i ∉ deregIdents ops)

/-! ### Map lemmas -/

theorem contains_true_iff {α : Type} [BEq α] [LawfulBEq α] (l : List α) (a : α) :
    l.contains a = true ↔ a ∈ l := List.elem_iff

theorem mapGet_cons (p : String × Identity) (l : List (String × Identity)) (c : String) :
    mapGet (p :: l) c = if p.1 = c then some p.2 else mapGet l c := by
  by_cases h : p.1 = c
  · rw [mapGet, List.find?_cons_of_pos _ (by simpa using h), if_pos h]
    rfl
  · rw [mapGet, List.find?_cons_of_neg _ (by simpa using h), if_neg h]
    rfl

theorem mapGet_mapSet_self (m : List (String × Identity)) (k : String) (v : Identity) :
    mapGet (mapSet m k v) k = some v := by
  induction m with
  | nil => simp [mapSet, mapGet_cons]
  | cons p rest ih =>
    by_cases h : p.1 = k
    · simp [mapSet, h, mapGet_cons]
    · simp only [mapSet, if_neg h]
      rw [mapGet_cons, if_neg h]
      exact ih

theorem mapGet_mapSet_ne (m : List (String × Identity)) (k c : String) (v : Identity)
    (h : c ≠ k) : mapGet (mapSet m k v) c = mapGet m c := by
  induction m with
  | nil =>
    show mapGet [(k, v)] c = mapGet [] c
    rw [mapGet_cons, if_neg (fun hkc => h hkc.symm)]
  | cons p rest ih =>
    by_cases hp : p.1 = k
    · simp only [mapSet, if_pos hp]
      rw [mapGet_cons, mapGet_cons, if_neg (fun hkc => h hkc.symm), if_neg (by rw [hp]; exact fun hkc => h hkc.symm)]
    · simp only [mapSet, if_neg hp]
      rw [mapGet_cons, mapGet_cons]
      by_cases hc : p.1 = c
      · simp [hc]
      · simp only [if_neg hc]
        exact ih

theorem mapDelete_cons (p : String × Identity) (l : List (String × Identity)) (k : String) :
    mapDelete (p :: l) k = if p.1 = k then mapDelete l k else p :: mapDelete l k := by
  by_cases h : p.1 = k
  · simp [mapDelete, List.filter_cons, h]
  · simp [mapDelete, List.filter_cons, h]

theorem mapGet_mapDelete_self (m : List (String × Identity)) (k : String) :
    mapGet (mapDelete m k) k = none := by
  induction m with
  | nil => rfl
  | cons p rest ih =>
    rw [mapDelete_cons]
    by_cases h : p.1 = k
    · rw [if_pos h]; exact ih
    · rw [if_neg h, mapGet_cons, if_neg h]; exact ih

theorem mapGet_mapDelete_ne (m : List (String × Identity)) (k c : String)
    (h : c ≠ k) : mapGet (mapDelete m k) c = mapGet m c := by
  induction m with
  | nil => rfl
  | cons p rest ih =>
    rw [mapDelete_cons]
    by_cases hp : p.1 = k
    · rw [if_pos hp, mapGet_cons, if_neg (by rw [hp]; exact fun hkc => h hkc.symm)]
      exact ih
    · rw [if_neg hp, mapGet_cons, mapGet_cons]
      by_cases hc : p.1 = c
      · simp [hc]
      · simp only [if_neg hc]
        exact ih

theorem mem_keys_mapSet (m : List (String × Identity)) (k c : String) (v : Identity)
    (h : c ∈ (mapSet m k v).map Prod.fst) : c ∈ m.map Prod.fst ∨ c = k := by
  induction m with
  | nil => simp [mapSet] at h; exact Or.inr h
  | cons p rest ih =>
    by_cases hp : p.1 = k
    · simp only [mapSet, if_pos hp] at h
      simp only [List.map_cons, List.mem_cons] at h ⊢
      rcases h with h | h
      · exact Or.inr h
      · exact Or.inl (Or.inr h)
    · simp only [mapSet, if_neg hp] at h
      simp only [List.map_cons, List.mem_cons] at h ⊢
      rcases h with h | h
      · exact Or.inl (Or.inl h)
      · rcases ih h with h1 | h1
        · exact Or.inl (Or.inr h1)
        · exact Or.inr h1

theorem nodupKeys_mapSet (m : List (String × Identity)) (k : String) (v : Identity)
    (h : nodupKeys m) : nodupKeys (mapSet m k v) := by
  induction m with
  | nil => simp [mapSet, nodupKeys]
  | cons p rest ih =>
    rw [nodupKeys, List.map_cons, List.nodup_cons] at h
    by_cases hp : p.1 = k
    · simp only [mapSet, if_pos hp]
      rw [nodupKeys, List.map_cons, List.nodup_cons]
      exact ⟨by rw [← hp]; exact h.1, h.2⟩
    · simp only [mapSet, if_neg hp]
      rw [nodupKeys, List.map_cons, List.nodup_cons]
      refine ⟨fun hmem => ?_, ih h.2⟩
      rcases mem_keys_mapSet rest k p.1 v hmem with h1 | h1
      · exact h.1 h1
      · exact hp h1

theorem nodupKeys_mapDelete (m : List (String × Identity)) (k : String)
    (h : nodupKeys m) : nodupKeys (mapDelete m k) := by
  have hsub : List.Sublist ((mapDelete m k).map Prod.fst) (m.map Prod.fst) :=
    (List.filter_sublist m).map Prod.fst
  exact List.Nodup.sublist hsub h

theorem mapGet_eq_some_of_mem (m : List (String × Identity)) (p : String × Identity)
    (hnd : nodupKeys m) (hp : p ∈ m) : mapGet m p.1 = some p.2 := by
  induction m with
  | nil => cases hp
  | cons q rest ih =>
    rw [nodupKeys, List.map_cons, List.nodup_cons] at hnd
    rcases List.mem_cons.mp hp with h | h
    · subst h
      rw [mapGet_cons, if_pos rfl]
    · rw [mapGet_cons]
      by_cases hq : q.1 = p.1
      · exact absurd (hq ▸ List.mem_map_of_mem Prod.fst h) hnd.1
      · rw [if_neg hq]
        exact ih hnd.2 h

theorem mem_values_of_mapGet (m : List (String × Identity)) (c : String) (i : Identity)
    (h : mapGet m c = some i) : i ∈ m.map Prod.snd := by
  rw [mapGet] at h
  rcases Option.map_eq_some'.mp h with ⟨p, hfind, hsnd⟩
  exact hsnd ▸ List.mem_map_of_mem Prod.snd (List.mem_of_find?_eq_some hfind)

theorem mem_values_iff_mapGet (m : List (String × Identity)) (i : Identity)
    (hnd : nodupKeys m) : i ∈ m.map Prod.snd ↔ ∃ c, mapGet m c = some i := by
  constructor
  · intro h
    rcases List.mem_map.mp h with ⟨p, hp, hsnd⟩
    exact ⟨p.1, by rw [mapGet_eq_some_of_mem m p hnd hp, hsnd]⟩
  · rintro ⟨c, hc⟩
    exact mem_values_of_mapGet m c i hc

/-! ### Room membership lemmas -/

theorem contains_rooms_joinRoom_self (s : ServerState) (c r : String) :
    ((joinRoom s c r).rooms).contains (c, r) = true := by
  by_cases h : s.rooms.contains (c, r) = true
  · simp only [joinRoom, if_pos h]
    exact h
  · simp only [joinRoom, if_neg h, List.contains_cons]
    simp

theorem mem_rooms_joinRoom_self (s : ServerState) (c r : String) :
    (c, r) ∈ (joinRoom s c r).rooms :=
  (contains_true_iff _ _).mp (contains_rooms_joinRoom_self s c r)

theorem joinRoom_idem (s : ServerState) (c r : String) :
    joinRoom (joinRoom s c r) c r = joinRoom s c r := by
  have h := contains_rooms_joinRoom_self s c r
  conv_lhs => rw [joinRoom.eq_def]
  rw [if_pos h]

theorem leaveRoom_not_joined (s : ServerState) (c r : String)
    (h : (c, r) ∉ s.rooms) : leaveRoom s c r = s := by
  rw [leaveRoom.eq_def]
  have hf : s.rooms.filter (fun p => p ≠ (c, r)) = s.rooms := by
    apply List.filter_eq_self.mpr
    intro a ha
    simp only [ne_eq, decide_eq_true_eq]
    intro heq
    exact h (heq ▸ ha)
  rw [hf]

theorem contains_rooms_leaveRoom_self (s : ServerState) (c r : String) :
    ((leaveRoom s c r).rooms).contains (c, r) = false := by
  rw [Bool.eq_false_iff]
  intro hc
  have hm := (contains_true_iff _ _).mp hc
  rw [leaveRoom] at hm
  have := (List.mem_filter.mp hm).2
  simp at this

theorem rooms_joinTimes_subset (s : ServerState) (c r : String) (n : Nat)
    (p : String × String) (hp : p ∈ (joinTimes s c r n).rooms) :
    p ∈ s.rooms ∨ p = (c, r) := by
  induction n with
  | zero => exact Or.inl hp
  | succ k ih =>
    simp only [joinTimes, joinRoom] at hp
    by_cases hc : (joinTimes s c r k).rooms.contains (c, r) = true
    · rw [if_pos hc] at hp
      exact ih hp
    · rw [if_neg hc] at hp
      rcases List.mem_cons.mp hp with h1 | h1
      · exact Or.inr h1
      · exact ih h1

/-! ### Registry sequence lemmas -/

theorem reg_not_mem_of_seen (ops : List RegOp) (seen : List String) (c : String)
    (hwf : wfOps seen ops = true) (hc : c ∈ seen) :
    ∀ i, RegOp.reg c i ∉ ops := by
  induction ops generalizing seen with
  | nil => intro i h; cases h
  | cons o rest ih =>
    intro i h
    cases o with
    | reg c1 i1 =>
      rw [wfOps, Bool.and_eq_true] at hwf
      rcases List.mem_cons.mp h with h1 | h1
      · cases h1
        rw [Bool.not_eq_true', Bool.eq_false_iff] at hwf
        exact hwf.1 ((contains_true_iff seen c).mpr hc)
      · exact ih (c1 :: seen) hwf.2 (List.mem_cons_of_mem c1 hc) i h1
    | dereg c1 =>
      rw [wfOps] at hwf
      rcases List.mem_cons.mp h with h1 | h1
      · cases h1
      · exact ih (c1 :: seen) hwf (List.mem_cons_of_mem c1 hc) i h1

theorem regLookup_cons_reg (c1 c : String) (i : Identity) (rest : List RegOp) :
    regLookup (RegOp.reg c1 i :: rest) c =
      if c1 = c then some i else regLookup rest c := by
  rw [regLookup, List.findSome?_cons]
  by_cases h : c1 = c
  · simp [h]
  · simp only [if_neg h]
    rfl

theorem regLookup_cons_dereg (c1 c : String) (rest : List RegOp) :
    regLookup (RegOp.dereg c1 :: rest) c = regLookup rest c := by
  rw [regLookup, List.findSome?_cons]
  rfl

theorem regLookup_eq_none_of_seen (ops : List RegOp) (seen : List String) (c : String)
    (hwf : wfOps seen ops = true) (hc : c ∈ seen) : regLookup ops c = none := by
  induction ops generalizing seen with
  | nil => rfl
  | cons o rest ih =>
    cases o with
    | reg c1 i1 =>
      rw [wfOps, Bool.and_eq_true] at hwf
      rw [regLookup_cons_reg]
      have hne : c1 ≠ c := by
        intro heq
        rw [Bool.not_eq_true', Bool.eq_false_iff] at hwf
        exact hwf.1 ((contains_true_iff seen c1).mpr (heq ▸ hc))
      rw [if_neg hne]
      exact ih (c1 :: seen) hwf.2 (List.mem_cons_of_mem c1 hc)
    | dereg c1 =>
      rw [wfOps] at hwf
      rw [regLookup_cons_dereg]
      exact ih (c1 :: seen) hwf (List.mem_cons_of_mem c1 hc)

theorem regLookup_eq_some_of_mem (ops : List RegOp) (seen : List String) (c : String)
    (i : Identity) (hwf : wfOps seen ops = true) (hmem : RegOp.reg c i ∈ ops) :
    regLookup ops c = some i := by
  induction ops generalizing seen with
  | nil => cases hmem
  | cons o rest ih =>
    cases o with
    | reg c1 i1 =>
      rw [wfOps, Bool.and_eq_true] at hwf
      rw [regLookup_cons_reg]
      rcases List.mem_cons.mp hmem with h1 | h1
      · cases h1
        rw [if_pos rfl]
      · by_cases h : c1 = c
        · subst h
          exact absurd h1 (reg_not_mem_of_seen rest (c1 :: seen) c1 hwf.2 (List.mem_cons_self c1 seen) i)
        · rw [if_neg h]
          exact ih (c1 :: seen) hwf.2 h1
    | dereg c1 =>
      rw [wfOps] at hwf
      rw [regLookup_cons_dereg]
      rcases List.mem_cons.mp hmem with h1 | h1
      · cases h1
      · exact ih (c1 :: seen) hwf h1

theorem mem_mapSet (m : List (String × Identity)) (k : String) (v : Identity)
    (p : String × Identity) (hp : p ∈ mapSet m k v) : p ∈ m ∨ p = (k, v) := by
  induction m with
  | nil =>
    rcases List.mem_cons.mp hp with h | h
    · exact Or.inr h
    · cases h
  | cons q rest ih =>
    by_cases hq : q.1 = k
    · simp only [mapSet, if_pos hq] at hp
      rcases List.mem_cons.mp hp with h | h
      · exact Or.inr h
      · exact Or.inl (List.mem_cons_of_mem q h)
    · simp only [mapSet, if_neg hq] at hp
      rcases List.mem_cons.mp hp with h | h
      · exact Or.inl (h ▸ List.mem_cons_self q rest)
      · rcases ih h with h1 | h1
        · exact Or.inl (List.mem_cons_of_mem q h1)
        · exact Or.inr h1

theorem nodupKeys_applyOps (ops : List RegOp) (m : List (String × Identity))
    (h : nodupKeys m) : nodupKeys (applyOps m ops) := by
  induction ops generalizing m with
  | nil => exact h
  | cons o rest ih =>
    cases o with
    | reg c1 i1 => exact ih (mapSet m c1 i1) (nodupKeys_mapSet m c1 i1 h)
    | dereg c1 => exact ih (mapDelete m c1) (nodupKeys_mapDelete m c1 h)

theorem applyOps_mapGet (ops : List RegOp) (seen : List String)
    (m : List (String × Identity)) (c : String)
    (hwf : wfOps seen ops = true)
    (hkeys : ∀ p ∈ m, p.1 ∈ seen) :
    mapGet (applyOps m ops) c =
      if RegOp.dereg c ∈ ops then none
      else
        match regLookup ops c with
        | some i => some i
        | none => mapGet m c := by
  induction ops generalizing seen m with
  | nil =>
    simp [applyOps, regLookup, List.findSome?]
  | cons o rest ih =>
    cases o with
    | reg c1 i1 =>
      rw [wfOps, Bool.and_eq_true] at hwf
      have hkeys1 : ∀ p ∈ mapSet m c1 i1, p.1 ∈ c1 :: seen := by
        intro p hp
        rcases mem_mapSet m c1 i1 p hp with h | h
        · exact List.mem_cons_of_mem _ (hkeys p h)
        · rw [h]; exact List.mem_cons_self _ _
      have hmem : (RegOp.dereg c ∈ RegOp.reg c1 i1 :: rest) ↔ RegOp.dereg c ∈ rest := by
        simp
      have hl : applyOps m (RegOp.reg c1 i1 :: rest) = applyOps (mapSet m c1 i1) rest := rfl
      rw [hl, ih (c1 :: seen) (mapSet m c1 i1) hwf.2 hkeys1]
      simp only [hmem, regLookup_cons_reg]
      by_cases hc : c1 = c
      · subst hc
        rw [if_pos rfl,
          regLookup_eq_none_of_seen rest (c1 :: seen) c1 hwf.2 (List.mem_cons_self _ _),
          mapGet_mapSet_self]
      · rw [if_neg hc, mapGet_mapSet_ne m c1 c i1 (fun h => hc h.symm)]
    | dereg c1 =>
      rw [wfOps] at hwf
      have hkeys1 : ∀ p ∈ mapDelete m c1, p.1 ∈ c1 :: seen := by
        intro p hp
        exact List.mem_cons_of_mem _ (hkeys p (List.mem_of_mem_filter hp))
      have hl : applyOps m (RegOp.dereg c1 :: rest) = applyOps (mapDelete m c1) rest := rfl
      rw [hl, ih (c1 :: seen) (mapDelete m c1) hwf hkeys1]
      simp only [regLookup_cons_dereg]
      by_cases hc : c1 = c
      · subst hc
        have hd : RegOp.dereg c1 ∈ RegOp.dereg c1 :: rest := List.mem_cons_self _ _
        rw [if_pos hd,
          regLookup_eq_none_of_seen rest (c1 :: seen) c1 hwf (List.mem_cons_self _ _),
          mapGet_mapDelete_self]
        split <;> rfl
      · have hmem : (RegOp.dereg c ∈ RegOp.dereg c1 :: rest) ↔ RegOp.dereg c ∈ rest := by
          constructor
          · intro h
            rcases List.mem_cons.mp h with h1 | h1
            · injection h1 with hcc
              exact absurd hcc.symm hc
            · exact h1
          · exact List.mem_cons_of_mem _
        simp only [hmem, mapGet_mapDelete_ne m c1 c (fun h => hc h.symm)]

theorem mem_of_regLookup_eq_some (ops : List RegOp) (c : String) (i : Identity)
    (h : regLookup ops c = some i) : RegOp.reg c i ∈ ops := by
  induction ops with
  | nil => cases h
  | cons o rest ih =>
    cases o with
    | reg c1 i1 =>
      rw [regLookup_cons_reg] at h
      by_cases hc : c1 = c
      · rw [if_pos hc] at h
        cases h
        exact hc ▸ List.mem_cons_self _ _
      · rw [if_neg hc] at h
        exact List.mem_cons_of_mem _ (ih h)
    | dereg c1 =>
      rw [regLookup_cons_dereg] at h
      exact List.mem_cons_of_mem _ (ih h)

theorem onlineUsers_joinRoom (s : ServerState) (c r : String) :
    (joinRoom s c r).onlineUsers = s.onlineUsers := by
  rw [joinRoom.eq_def]
  split <;> rfl

theorem onlineUsers_leaveRoom (s : ServerState) (c r : String) :
    (leaveRoom s c r).onlineUsers = s.onlineUsers := rfl

theorem runEvents_cons (verify : String → Option Identity) (s : ServerState)
    (e : ClientEv) (evs : List ClientEv) :
    runEvents verify s (e :: evs) = runEvents verify (step verify s e).1 evs := rfl

theorem step_preserves_absent (verify : String → Option Identity) (s : ServerState)
    (ev : ClientEv) (c : String)
    (hs : mapGet s.onlineUsers c = none)
    (hev : ∀ tok, ev = ClientEv.connect c tok → ∀ i, authMiddleware verify tok ≠ .ok i) :
    mapGet (step verify s ev).1.onlineUsers c = none := by
  cases ev with
  | connect c1 tok =>
    cases ha : authMiddleware verify tok with
    | error e => simpa [step, ha] using hs
    | ok i =>
      by_cases hc : c1 = c
      · exact absurd ha (hev tok (by rw [hc]) i)
      · have h1 : (step verify s (.connect c1 tok)).1
            = { s with onlineUsers := mapSet s.onlineUsers c1 i } := by
          simp [step, ha, onConnection]
        rw [h1]
        show mapGet (mapSet s.onlineUsers c1 i) c = none
        rw [mapGet_mapSet_ne _ _ _ _ (fun h => hc h.symm)]
        exact hs
  | disconnect c1 =>
    by_cases hh : mapHas s.onlineUsers c1 = true
    · have h1 : (step verify s (.disconnect c1)).1
          = { onlineUsers := mapDelete s.onlineUsers c1,
              rooms := s.rooms.filter (fun p => p.1 ≠ c1) } := by
        simp [step, hh, onDisconnect]
      rw [h1]
      by_cases hc : c = c1
      · subst hc
        exact mapGet_mapDelete_self _ _
      · show mapGet (mapDelete s.onlineUsers c1) c = none
        rw [mapGet_mapDelete_ne _ _ _ hc]
        exact hs
    · have h1 : (step verify s (.disconnect c1)).1 = s := by simp [step, hh]
      rw [h1]
      exact hs
  | joinProject c1 pid =>
    by_cases hh : mapHas s.onlineUsers c1 = true <;>
      simp [step, hh, onJoinProject, onlineUsers_joinRoom, hs]
  | leaveProject c1 pid =>
    by_cases hh : mapHas s.onlineUsers c1 = true <;>
      simp [step, hh, onLeaveProject, onlineUsers_leaveRoom, hs]
  | joinUser c1 uid =>
    by_cases hh : mapHas s.onlineUsers c1 = true <;>
      simp [step, hh, onJoinUser, onlineUsers_joinRoom, hs]
  | leaveUser c1 uid =>
    by_cases hh : mapHas s.onlineUsers c1 = true <;>
      simp [step, hh, onLeaveUser, onlineUsers_leaveRoom, hs]
  | startTyping c1 rid =>
    cases hg : mapGet s.onlineUsers c1 <;> simp [step, hg, hs]
  | stopTyping c1 rid =>
    cases hg : mapGet s.onlineUsers c1 <;> simp [step, hg, hs]

theorem keys_mapSet_of_mem (m : List (String × Identity)) (k : String) (v : Identity)
    (h : mapHas m k = true) :
    (mapSet m k v).map Prod.fst = m.map Prod.fst := by
  induction m with
  | nil => simp [mapHas, mapGet] at h
  | cons p rest ih =>
    by_cases hp : p.1 = k
    · simp [mapSet, hp]
    · rw [mapHas, mapGet_cons, if_neg hp] at h
      simp only [mapSet, if_neg hp, List.map_cons]
      rw [ih h]

/-! ### Claim theorems -/

/-- C6: `startTyping` publishes a `userTyping` event carrying the sender's
user id, display name and the topic to every subscriber of the topic
except the sender itself, and `stopTyping` publishes the same payload
without the display name; the sender never receives its own typing event,
even when it is the only subscriber. -/
theorem C6_typing_relay (s : ServerState) (c topic : String) (ident : Identity) :
    onStartTyping c ident (some topic) =
      [{ target := .room (some topic) (some c), event := "userTyping",
         payload := .typing ident.userId ident.name (some topic) }]
    ∧ onStopTyping c ident (some topic) =
      [{ target := .room (some topic) (some c), event := "userStoppedTyping",
         payload := .stopped ident.userId (some topic) }]
    ∧ (∀ e ∈ onStartTyping c ident (some topic), ∀ d,
        delivers s e d = (s.rooms.contains (d, topic) && !(c == d)))
    ∧ (∀ e ∈ onStopTyping c ident (some topic), ∀ d,
        delivers s e d = (s.rooms.contains (d, topic) && !(c == d)))
    ∧ (∀ e ∈ onStartTyping c ident (some topic), delivers s e c = false)
    ∧ (∀ e ∈ onStopTyping c ident (some topic), delivers s e c = false) := by
  refine ⟨rfl, rfl, ?_, ?_, ?_, ?_⟩ <;>
    simp [onStartTyping, onStopTyping, delivers]

/-- C8: topic membership behaves as a set — joining the same topic twice
is a no-op, leaving a topic the connection never joined is a no-op, and
joining any number of times followed by a single leave leaves the
connection not subscribed. -/
theorem C8_topic_membership_is_a_set (s : ServerState) (c r : String)
    (h : (c, r) ∉ s.rooms) :
    joinRoom (joinRoom s c r) c r = joinRoom s c r
    ∧ leaveRoom s c r = s
    ∧ ∀ n, ((leaveRoom (joinTimes s c r n) c r).rooms).contains (c, r) = false := by
  exact ⟨joinRoom_idem s c r, leaveRoom_not_joined s c r h,
    fun n => contains_rooms_leaveRoom_self (joinTimes s c r n) c r⟩

/-- Witness for C8 at the empty server state, connection `s1`, topic
`project:1`. -/
theorem C8_witness :
    (("s1", "project:1") ∉ (ServerState.mk [] []).rooms)
    ∧ (joinRoom (joinRoom ⟨[], []⟩ "s1" "project:1") "s1" "project:1"
          = joinRoom ⟨[], []⟩ "s1" "project:1"
      ∧ leaveRoom ⟨[], []⟩ "s1" "project:1" = (⟨[], []⟩ : ServerState)
      ∧ ∀ n, ((leaveRoom (joinTimes ⟨[], []⟩ "s1" "project:1" n) "s1" "project:1").rooms).contains
          ("s1", "project:1") = false) :=
  ⟨by decide, C8_topic_membership_is_a_set ⟨[], []⟩ "s1" "project:1" (by decide)⟩

/-- C9: a `startTyping`/`stopTyping` whose payload is missing the topic is
dropped — the server state is unchanged (the connection stays active) and
the resulting emit is delivered to no connection at all. -/
theorem C9_missing_topic_dropped (verify : String → Option Identity)
    (s : ServerState) (c : String) :
    (step verify s (.startTyping c none)).1 = s
    ∧ (∀ e ∈ (step verify s (.startTyping c none)).2, ∀ d, delivers s e d = false)
    ∧ (step verify s (.stopTyping c none)).1 = s
    ∧ (∀ e ∈ (step verify s (.stopTyping c none)).2, ∀ d, delivers s e d = false) := by
  refine ⟨?_, ?_, ?_, ?_⟩ <;>
    cases hg : mapGet s.onlineUsers c <;>
      simp [step, hg, onStartTyping, onStopTyping, delivers]

/-- C10: `joinUser` subscribes the requesting connection to the personal
room `user:<targetUserId>` without checking the target against the
connection's own authenticated user id, so after `joinUser U` every
`notification:new` emitted to `user:U` (such as the one produced by
assigning a task to U) is delivered to that connection even though its
identity is not U. -/
theorem C10_joinUser_unchecked (verify : String → Option Identity) (s : ServerState)
    (st : Store) (c targetU tid : String) (ident assignedBy : Identity) (t : TaskRec)
    (honline : mapGet s.onlineUsers c = some ident)
    (hnotown : ident.userId ≠ targetU)
    (ht : findTask st tid = some t) :
    ∀ e ∈ (assignTask true st tid targetU assignedBy).emits,
      delivers (step verify s (.joinUser c targetU)).1 e c = true := by
  intro e he
  have hhas : mapHas s.onlineUsers c = true := by rw [mapHas, honline]; rfl
  have hemits : (assignTask true st tid targetU assignedBy).emits =
      [{ target := .room (some ("user:" ++ targetU)) none,
         event := "notification:new",
         payload := .notifNew (assignNotif tid targetU { t with assignedTo := some targetU }) }] := by
    simp [assignTask, ht]
  rw [hemits, List.mem_singleton] at he
  subst he
  simp [step, hhas, onJoinUser, delivers, mem_rooms_joinRoom_self]

/-- Witness for C10: connection `sc` (user `u1`) joins user room of `u9`
and receives the task-assignment notification addressed to `u9`. -/
theorem C10_witness :
    mapGet (ServerState.mk [("sc", ⟨"u1", "Alice"⟩)] []).onlineUsers "sc" = some ⟨"u1", "Alice"⟩
    ∧ ("u1" : String) ≠ "u9"
    ∧ findTask (Store.mk [⟨"t1", "Fix bug", "p1", "todo", none⟩] [] []) "t1"
        = some ⟨"t1", "Fix bug", "p1", "todo", none⟩
    ∧ ∀ e ∈ (assignTask true (Store.mk [⟨"t1", "Fix bug", "p1", "todo", none⟩] [] [])
          "t1" "u9" ⟨"u3", "Mia"⟩).emits,
        delivers (step (fun _ => none) ⟨[("sc", ⟨"u1", "Alice"⟩)], []⟩ (.joinUser "sc" "u9")).1 e "sc" = true :=
  ⟨by decide, by decide, by decide,
    C10_joinUser_unchecked (fun _ => none) ⟨[("sc", ⟨"u1", "Alice"⟩)], []⟩
      (Store.mk [⟨"t1", "Fix bug", "p1", "todo", none⟩] [] []) "sc" "u9" "t1" ⟨"u1", "Alice"⟩
      ⟨"u3", "Mia"⟩ ⟨"t1", "Fix bug", "p1", "todo", none⟩ (by decide) (by decide) (by decide)⟩

/-- C1: the notification fan-out rules — assigning task T (in project P)
to user U persists exactly one Notification of type `task_assigned` with
recipient U, related task T, related project P and `isRead` false, and
emits `notification:new` to room `user:U`; a status change and a comment
persist no Notification and only broadcast `task:updated` / `comment:new`
to room `project:P`. -/
theorem C1_notification_fanout (st : Store) (tid uid newStatus content author : String)
    (updatedBy assignedBy : Identity) (t : TaskRec) (ht : findTask st tid = some t) :
    (assignTask true st tid uid assignedBy).store.notifications
        = st.notifications ++
          [{ message := "You have been assigned to task: \"" ++ t.title ++ "\"",
             type := "task_assigned", recipient := uid, relatedTask := some tid,
             relatedProject := some t.project, isRead := false }]
    ∧ (assignTask true st tid uid assignedBy).emits
        = [{ target := .room (some ("user:" ++ uid)) none, event := "notification:new",
             payload := .notifNew
               { message := "You have been assigned to task: \"" ++ t.title ++ "\"",
                 type := "task_assigned", recipient := uid, relatedTask := some tid,
                 relatedProject := some t.project, isRead := false } }]
    ∧ (updateTaskStatus true st tid newStatus updatedBy).store.notifications
        = st.notifications
    ∧ (updateTaskStatus true st tid newStatus updatedBy).emits
        = [{ target := .room (some ("project:" ++ t.project)) none, event := "task:updated",
             payload := .taskUpdated t.taskId newStatus updatedBy.name
               { t with status := newStatus } }]
    ∧ (addComment true st tid content author).store.notifications = st.notifications
    ∧ (addComment true st tid content author).emits
        = [{ target := .room (some ("project:" ++ t.project)) none, event := "comment:new",
             payload := .commentNew tid { content := content, task := tid, author := author } }] := by
  have hcomm : ∀ x : List CommentRec, findTask { st with comments := x } tid = findTask st tid :=
    fun _ => rfl
  refine ⟨?_, ?_, ?_, ?_, ?_, ?_⟩ <;>
    simp [assignTask, updateTaskStatus, addComment, assignNotif, hcomm, ht]

/-- Witness for C1 at a one-task store. -/
theorem C1_witness :
    findTask (Store.mk [⟨"t1", "Fix bug", "p1", "todo", none⟩] [] []) "t1"
        = some ⟨"t1", "Fix bug", "p1", "todo", none⟩
    ∧ ((assignTask true (Store.mk [⟨"t1", "Fix bug", "p1", "todo", none⟩] [] [])
          "t1" "u9" ⟨"u3", "Mia"⟩).store.notifications
        = [] ++
          [{ message := "You have been assigned to task: \"Fix bug\"",
             type := "task_assigned", recipient := "u9", relatedTask := some "t1",
             relatedProject := some "p1", isRead := false }]
    ∧ (assignTask true (Store.mk [⟨"t1", "Fix bug", "p1", "todo", none⟩] [] [])
          "t1" "u9" ⟨"u3", "Mia"⟩).emits
        = [{ target := .room (some ("user:" ++ "u9")) none, event := "notification:new",
             payload := .notifNew
               { message := "You have been assigned to task: \"Fix bug\"",
                 type := "task_assigned", recipient := "u9", relatedTask := some "t1",
                 relatedProject := some "p1", isRead := false } }]
    ∧ (updateTaskStatus true (Store.mk [⟨"t1", "Fix bug", "p1", "todo", none⟩] [] [])
          "t1" "done" ⟨"u3", "Mia"⟩).store.notifications = []
    ∧ (updateTaskStatus true (Store.mk [⟨"t1", "Fix bug", "p1", "todo", none⟩] [] [])
          "t1" "done" ⟨"u3", "Mia"⟩).emits
        = [{ target := .room (some ("project:" ++ "p1")) none, event := "task:updated",
             payload := .taskUpdated "t1" "done" "Mia" ⟨"t1", "Fix bug", "p1", "done", none⟩ }]
    ∧ (addComment true (Store.mk [⟨"t1", "Fix bug", "p1", "todo", none⟩] [] [])
          "t1" "hello" "u2").store.notifications = []
    ∧ (addComment true (Store.mk [⟨"t1", "Fix bug", "p1", "todo", none⟩] [] [])
          "t1" "hello" "u2").emits
        = [{ target := .room (some ("project:" ++ "p1")) none, event := "comment:new",
             payload := .commentNew "t1" { content := "hello", task := "t1", author := "u2" } }]) :=
  ⟨by decide,
    C1_notification_fanout (Store.mk [⟨"t1", "Fix bug", "p1", "todo", none⟩] [] []) "t1" "u9"
      "done" "hello" "u2" ⟨"u3", "Mia"⟩ ⟨"u3", "Mia"⟩ ⟨"t1", "Fix bug", "p1", "todo", none⟩
      (by decide)⟩

/-- C3: when the document-store write succeeds, a failing broadcast step
(`emitOk = false`) is caught and swallowed — the persisted store is the
same as on the success path, the updated record is still returned to the
HTTP caller, and no error is propagated; only the emit itself is lost. -/
theorem C3_emit_failure_swallowed (st : Store) (tid uid newStatus content author : String)
    (updatedBy assignedBy : Identity) (t : TaskRec) (ht : findTask st tid = some t) :
    ((assignTask false st tid uid assignedBy).store = (assignTask true st tid uid assignedBy).store
      ∧ (assignTask false st tid uid assignedBy).result = .ok { t with assignedTo := some uid }
      ∧ (assignTask false st tid uid assignedBy).emits = [])
    ∧ ((updateTaskStatus false st tid newStatus updatedBy).store
          = (updateTaskStatus true st tid newStatus updatedBy).store
      ∧ (updateTaskStatus false st tid newStatus updatedBy).result
          = .ok { t with status := newStatus }
      ∧ (updateTaskStatus false st tid newStatus updatedBy).emits = [])
    ∧ ((addComment false st tid content author).store
          = (addComment true st tid content author).store
      ∧ (addComment false st tid content author).result
          = .ok { content := content, task := tid, author := author }
      ∧ (addComment false st tid content author).emits = []) := by
  refine ⟨⟨?_, ?_, ?_⟩, ⟨?_, ?_, ?_⟩, ⟨?_, ?_, ?_⟩⟩ <;>
    simp [assignTask, updateTaskStatus, addComment, ht]

/-- Witness for C3 at a one-task store. -/
theorem C3_witness :
    findTask (Store.mk [⟨"t1", "Fix bug", "p1", "todo", none⟩] [] []) "t1"
        = some ⟨"t1", "Fix bug", "p1", "todo", none⟩
    ∧ (((assignTask false (Store.mk [⟨"t1", "Fix bug", "p1", "todo", none⟩] [] [])
            "t1" "u9" ⟨"u3", "Mia"⟩).store
          = (assignTask true (Store.mk [⟨"t1", "Fix bug", "p1", "todo", none⟩] [] [])
            "t1" "u9" ⟨"u3", "Mia"⟩).store
      ∧ (assignTask false (Store.mk [⟨"t1", "Fix bug", "p1", "todo", none⟩] [] [])
            "t1" "u9" ⟨"u3", "Mia"⟩).result
          = .ok ⟨"t1", "Fix bug", "p1", "todo", some "u9"⟩
      ∧ (assignTask false (Store.mk [⟨"t1", "Fix bug", "p1", "todo", none⟩] [] [])
            "t1" "u9" ⟨"u3", "Mia"⟩).emits = [])
    ∧ ((updateTaskStatus false (Store.mk [⟨"t1", "Fix bug", "p1", "todo", none⟩] [] [])
            "t1" "done" ⟨"u3", "Mia"⟩).store
          = (updateTaskStatus true (Store.mk [⟨"t1", "Fix bug", "p1", "todo", none⟩] [] [])
            "t1" "done" ⟨"u3", "Mia"⟩).store
      ∧ (updateTaskStatus false (Store.mk [⟨"t1", "Fix bug", "p1", "todo", none⟩] [] [])
            "t1" "done" ⟨"u3", "Mia"⟩).result
          = .ok ⟨"t1", "Fix bug", "p1", "done", none⟩
      ∧ (updateTaskStatus false (Store.mk [⟨"t1", "Fix bug", "p1", "todo", none⟩] [] [])
            "t1" "done" ⟨"u3", "Mia"⟩).emits = [])
    ∧ ((addComment false (Store.mk [⟨"t1", "Fix bug", "p1", "todo", none⟩] [] [])
            "t1" "hello" "u2").store
          = (addComment true (Store.mk [⟨"t1", "Fix bug", "p1", "todo", none⟩] [] [])
            "t1" "hello" "u2").store
      ∧ (addComment false (Store.mk [⟨"t1", "Fix bug", "p1", "todo", none⟩] [] [])
            "t1" "hello" "u2").result = .ok ⟨"hello", "t1", "u2"⟩
      ∧ (addComment false (Store.mk [⟨"t1", "Fix bug", "p1", "todo", none⟩] [] [])
            "t1" "hello" "u2").emits = [])) :=
  ⟨by decide,
    C3_emit_failure_swallowed (Store.mk [⟨"t1", "Fix bug", "p1", "todo", none⟩] [] [])
      "t1" "u9" "done" "hello" "u2" ⟨"u3", "Mia"⟩ ⟨"u3", "Mia"⟩
      ⟨"t1", "Fix bug", "p1", "todo", none⟩ (by decide)⟩

/-- C4: a connection whose handshake credential verification fails is
rejected before becoming active — the rejected handshake leaves the
server state unchanged and emits nothing — and over any event sequence in
which the connection never authenticates successfully, it never appears
in the online registry (so never in `listOnline()`). -/
theorem C4_rejected_never_registered (verify : String → Option Identity)
    (s : ServerState) (c : String) (evs : List ClientEv)
    (hs : mapHas s.onlineUsers c = false)
    (hevs : ∀ tok, ClientEv.connect c tok ∈ evs → ∀ i, authMiddleware verify tok ≠ .ok i) :
    (∀ tok, (∀ i, authMiddleware verify tok ≠ .ok i) →
      step verify s (.connect c tok) = (s, []))
    ∧ mapHas (runEvents verify s evs).onlineUsers c = false := by
  constructor
  · intro tok htok
    cases ha : authMiddleware verify tok with
    | error e => simp [step, ha]
    | ok i => exact absurd ha (htok i)
  · have hget : mapGet s.onlineUsers c = none := by
      rw [mapHas] at hs
      cases hmg : mapGet s.onlineUsers c
      · rfl
      · rw [hmg] at hs
        cases hs
    have main : ∀ (l : List ClientEv) (s1 : ServerState),
        mapGet s1.onlineUsers c = none →
        (∀ tok, ClientEv.connect c tok ∈ l → ∀ i, authMiddleware verify tok ≠ .ok i) →
        mapGet (runEvents verify s1 l).onlineUsers c = none := by
      intro l
      induction l with
      | nil => exact fun s1 h _ => h
      | cons e rest ih =>
        intro s1 h hr
        rw [runEvents_cons]
        refine ih (step verify s1 e).1 ?_ ?_
        · exact step_preserves_absent verify s1 e c h
            (fun tok hev i => hr tok (by rw [← hev]; exact List.mem_cons_self e rest) i)
        · exact fun tok htok i => hr tok (List.mem_cons_of_mem e htok) i
    rw [mapHas, main evs s hget hevs]
    rfl

/-- Witness for C4: a verifier that accepts nothing, an event sequence
with two rejected handshakes for `sx` and unrelated events. -/
theorem C4_witness :
    mapHas (ServerState.mk [] []).onlineUsers "sx" = false
    ∧ ((∀ tok, (∀ i, authMiddleware (fun _ => none) tok ≠ .ok i) →
          step (fun _ => none) ⟨[], []⟩ (.connect "sx" tok) = (⟨[], []⟩, []))
      ∧ mapHas (runEvents (fun _ => none) ⟨[], []⟩
          [.connect "sx" (some "tok"), .connect "sy" (some "Bearer tok2"),
           .disconnect "sx", .joinProject "sx" "p1"]).onlineUsers "sx" = false) := by
  have hevs : ∀ tok, ClientEv.connect "sx" tok ∈
      ([.connect "sx" (some "tok"), .connect "sy" (some "Bearer tok2"),
        .disconnect "sx", .joinProject "sx" "p1"] : List ClientEv) →
      ∀ i, authMiddleware (fun _ => none) tok ≠ Except.ok i := by
    intro tok htok i h
    cases tok with
    | none => simp [authMiddleware] at h
    | some a =>
      by_cases ha : a = ""
      · simp [authMiddleware, ha] at h
      · simp [authMiddleware, ha] at h
  exact ⟨by decide,
    C4_rejected_never_registered (fun _ => none) ⟨[], []⟩ "sx" _ (by decide) hevs⟩

/-- C7: every successful register and every successful deregister emits a
broadcast of the full `listOnline()` snapshot addressed to all live
connections; in particular when B disconnects, every remaining connection
receives an `onlineUsers` event whose payload no longer contains B's
identity. -/
theorem C7_presence_snapshot_broadcast (s : ServerState) (b cNew : String)
    (iNew identB : Identity)
    (honly : ∀ p ∈ s.onlineUsers, p.2 = identB → p.1 = b) :
    ((onConnection s cNew iNew).2 = [broadcastOnlineUsers (onConnection s cNew iNew).1])
    ∧ broadcastOnlineUsers (onConnection s cNew iNew).1 =
        { target := .all, event := "onlineUsers",
          payload := .onlineList (listOnline (onConnection s cNew iNew).1.onlineUsers) }
    ∧ (∀ e ∈ (onConnection s cNew iNew).2, ∀ d,
        mapHas (onConnection s cNew iNew).1.onlineUsers d = true →
          delivers (onConnection s cNew iNew).1 e d = true)
    ∧ ((onDisconnect s b).2 = [broadcastOnlineUsers (onDisconnect s b).1])
    ∧ broadcastOnlineUsers (onDisconnect s b).1 =
        { target := .all, event := "onlineUsers",
          payload := .onlineList (listOnline (mapDelete s.onlineUsers b)) }
    ∧ (∀ e ∈ (onDisconnect s b).2, ∀ d,
        mapHas (onDisconnect s b).1.onlineUsers d = true →
          delivers (onDisconnect s b).1 e d = true)
    ∧ identB ∉ listOnline (onDisconnect s b).1.onlineUsers := by
  refine ⟨rfl, rfl, ?_, rfl, rfl, ?_, ?_⟩
  · intro e he d hd
    have he2 : e = broadcastOnlineUsers (onConnection s cNew iNew).1 := by
      simpa [onConnection] using he
    subst he2
    exact hd
  · intro e he d hd
    have he2 : e = broadcastOnlineUsers (onDisconnect s b).1 := by
      simpa [onDisconnect] using he
    subst he2
    exact hd
  · intro hmem
    rcases List.mem_map.mp hmem with ⟨p, hp, hsnd⟩
    have hp2 := List.mem_filter.mp hp
    have hb := honly p hp2.1 hsnd
    have hne := hp2.2
    simp [hb] at hne

/-- Witness for C7: users A and B online, B disconnects; C connects. -/
theorem C7_witness :
    (∀ p ∈ (ServerState.mk [("sa", ⟨"uA", "A"⟩), ("sb", ⟨"uB", "B"⟩)] []).onlineUsers,
        p.2 = (⟨"uB", "B"⟩ : Identity) → p.1 = "sb")
    ∧ (((onConnection ⟨[("sa", ⟨"uA", "A"⟩), ("sb", ⟨"uB", "B"⟩)], []⟩ "sc" ⟨"uC", "C"⟩).2
          = [broadcastOnlineUsers (onConnection ⟨[("sa", ⟨"uA", "A"⟩), ("sb", ⟨"uB", "B"⟩)], []⟩ "sc" ⟨"uC", "C"⟩).1])
    ∧ broadcastOnlineUsers (onConnection ⟨[("sa", ⟨"uA", "A"⟩), ("sb", ⟨"uB", "B"⟩)], []⟩ "sc" ⟨"uC", "C"⟩).1 =
        { target := .all, event := "onlineUsers",
          payload := .onlineList (listOnline (onConnection ⟨[("sa", ⟨"uA", "A"⟩), ("sb", ⟨"uB", "B"⟩)], []⟩ "sc" ⟨"uC", "C"⟩).1.onlineUsers) }
    ∧ (∀ e ∈ (onConnection ⟨[("sa", ⟨"uA", "A"⟩), ("sb", ⟨"uB", "B"⟩)], []⟩ "sc" ⟨"uC", "C"⟩).2, ∀ d,
        mapHas (onConnection ⟨[("sa", ⟨"uA", "A"⟩), ("sb", ⟨"uB", "B"⟩)], []⟩ "sc" ⟨"uC", "C"⟩).1.onlineUsers d = true →
          delivers (onConnection ⟨[("sa", ⟨"uA", "A"⟩), ("sb", ⟨"uB", "B"⟩)], []⟩ "sc" ⟨"uC", "C"⟩).1 e d = true)
    ∧ ((onDisconnect ⟨[("sa", ⟨"uA", "A"⟩), ("sb", ⟨"uB", "B"⟩)], []⟩ "sb").2
          = [broadcastOnlineUsers (onDisconnect ⟨[("sa", ⟨"uA", "A"⟩), ("sb", ⟨"uB", "B"⟩)], []⟩ "sb").1])
    ∧ broadcastOnlineUsers (onDisconnect ⟨[("sa", ⟨"uA", "A"⟩), ("sb", ⟨"uB", "B"⟩)], []⟩ "sb").1 =
        { target := .all, event := "onlineUsers",
          payload := .onlineList (listOnline (mapDelete [("sa", ⟨"uA", "A"⟩), ("sb", ⟨"uB", "B"⟩)] "sb")) }
    ∧ (∀ e ∈ (onDisconnect ⟨[("sa", ⟨"uA", "A"⟩), ("sb", ⟨"uB", "B"⟩)], []⟩ "sb").2, ∀ d,
        mapHas (onDisconnect ⟨[("sa", ⟨"uA", "A"⟩), ("sb", ⟨"uB", "B"⟩)], []⟩ "sb").1.onlineUsers d = true →
          delivers (onDisconnect ⟨[("sa", ⟨"uA", "A"⟩), ("sb", ⟨"uB", "B"⟩)], []⟩ "sb").1 e d = true)
    ∧ (⟨"uB", "B"⟩ : Identity) ∉ listOnline (onDisconnect ⟨[("sa", ⟨"uA", "A"⟩), ("sb", ⟨"uB", "B"⟩)], []⟩ "sb").1.onlineUsers) :=
  ⟨by decide,
    C7_presence_snapshot_broadcast ⟨[("sa", ⟨"uA", "A"⟩), ("sb", ⟨"uB", "B"⟩)], []⟩
      "sb" "sc" ⟨"uC", "C"⟩ ⟨"uB", "B"⟩ (by decide)⟩

/-- C5 counterexample: registering an already-present connection id is
not an error and does not leave the existing entry in place — the second
`onlineUsers.set` on `s1` succeeds and replaces Alice's entry by Bob's. -/
theorem C5_counterexample :
    mapSet [("s1", ⟨"u1", "Alice"⟩)] "s1" ⟨"u2", "Bob"⟩ = [("s1", ⟨"u2", "Bob"⟩)]
    ∧ mapSet [("s1", ⟨"u1", "Alice"⟩)] "s1" ⟨"u2", "Bob"⟩
        ≠ [("s1", (⟨"u1", "Alice"⟩ : Identity))] := by
  decide

/-- C5 amended: a second register of an already-present connection id
succeeds silently with JS `Map.set` semantics — the stored identity for
that id is replaced and the key set is unchanged (no `DuplicateConnection`
error exists in the code). -/
theorem C5_register_overwrites (m : List (String × Identity)) (k : String) (v : Identity)
    (h : mapHas m k = true) :
    (mapSet m k v).map Prod.fst = m.map Prod.fst
    ∧ mapGet (mapSet m k v) k = some v :=
  ⟨keys_mapSet_of_mem m k v h, mapGet_mapSet_self m k v⟩

/-- Witness for C5 at a one-entry registry. -/
theorem C5_witness :
    mapHas [("s1", (⟨"u1", "Alice"⟩ : Identity))] "s1" = true
    ∧ ((mapSet [("s1", ⟨"u1", "Alice"⟩)] "s1" ⟨"u2", "Bob"⟩).map Prod.fst
          = [("s1", (⟨"u1", "Alice"⟩ : Identity))].map Prod.fst
      ∧ mapGet (mapSet [("s1", ⟨"u1", "Alice"⟩)] "s1" ⟨"u2", "Bob"⟩) "s1"
          = some ⟨"u2", "Bob"⟩) :=
  ⟨by decide, C5_register_overwrites [("s1", ⟨"u1", "Alice"⟩)] "s1" ⟨"u2", "Bob"⟩ (by decide)⟩

/-- C2 counterexample: the claim fails as universally quantified — in the
sequence `[deregister c1, register c1 Alice]` the register identifiers
are unique (and the early deregister is a no-op as claimed), yet Alice is
online afterwards while the claimed set difference "identities registered
minus identities deregistered" is empty. -/
theorem C2_counterexample :
    (regConnIds [RegOp.dereg "c1", RegOp.reg "c1" ⟨"u1", "Alice"⟩]).Nodup
    ∧ ¬ registryClaim [RegOp.dereg "c1", RegOp.reg "c1" ⟨"u1", "Alice"⟩] := by
  refine ⟨by decide, fun h => ?_⟩
  have h2 := (h (by decide) ⟨"u1", "Alice"⟩).mp (by decide)
  exact absurd h2 (by decide)

/-- C2 amended: for every well-formed sequence of register/deregister
calls — register identifiers unique and no identifier mentioned before
its register — an identity is in `listOnline()` afterwards exactly when
some connection registered it and that connection was not deregistered
(for distinct identities this is the registered-minus-deregistered set
difference); deregistering an absent identifier remains a no-op. -/
theorem C2_registry_set_semantics (ops : List RegOp) (hwf : wfOps [] ops = true) :
    ∀ i, i ∈ listOnline (applyOps [] ops) ↔
      ∃ c, RegOp.reg c i ∈ ops ∧ RegOp.dereg c ∉ ops := by
  intro i
  have hnd : nodupKeys (applyOps [] ops) :=
    nodupKeys_applyOps ops [] (by simp [nodupKeys])
  rw [show listOnline (applyOps [] ops) = (applyOps [] ops).map Prod.snd from rfl,
    mem_values_iff_mapGet _ _ hnd]
  constructor
  · rintro ⟨c, hc⟩
    rw [applyOps_mapGet ops [] [] c hwf (fun p hp => absurd hp (List.not_mem_nil p))] at hc
    by_cases hd : RegOp.dereg c ∈ ops
    · rw [if_pos hd] at hc
      cases hc
    · rw [if_neg hd] at hc
      refine ⟨c, ?_, hd⟩
      cases hreg : regLookup ops c with
      | none =>
        rw [hreg] at hc
        simp [mapGet] at hc
      | some j =>
        rw [hreg] at hc
        have hji : j = i := by
          simpa using hc
        exact hji ▸ mem_of_regLookup_eq_some ops c j hreg
  · rintro ⟨c, hreg, hd⟩
    refine ⟨c, ?_⟩
    rw [applyOps_mapGet ops [] [] c hwf (fun p hp => absurd hp (List.not_mem_nil p)),
      if_neg hd, regLookup_eq_some_of_mem ops [] c i hwf hreg]

/-- Witness for C2 at a concrete well-formed sequence: two registers, one
double deregister. -/
theorem C2_witness :
    wfOps [] [RegOp.reg "c1" ⟨"u1", "Alice"⟩, RegOp.reg "c2" ⟨"u2", "Bob"⟩,
      RegOp.dereg "c1", RegOp.dereg "c1"] = true
    ∧ ∀ i, i ∈ listOnline (applyOps [] [RegOp.reg "c1" ⟨"u1", "Alice"⟩,
        RegOp.reg "c2" ⟨"u2", "Bob"⟩, RegOp.dereg "c1", RegOp.dereg "c1"]) ↔
        ∃ c, RegOp.reg c i ∈ [RegOp.reg "c1" ⟨"u1", "Alice"⟩, RegOp.reg "c2" ⟨"u2", "Bob"⟩,
            RegOp.dereg "c1", RegOp.dereg "c1"]
          ∧ RegOp.dereg c ∉ [RegOp.reg "c1" ⟨"u1", "Alice"⟩, RegOp.reg "c2" ⟨"u2", "Bob"⟩,
            RegOp.dereg "c1", RegOp.dereg "c1"] :=
  ⟨by decide, C2_registry_set_semantics _ (by decide)⟩

end NodeRT
